import Mathlib

/-!
Verification of `assets/paypal-fee-handler.js`, the PayPal fee reconciliation
engine.  The JavaScript source is shallowly embedded below: pure functions
become Lean functions, the session storage and the external cart store become
explicit values threaded through the functions, network reads that can fail
become `Option`, and JavaScript number arithmetic on the fee rate is modelled
exactly as IEEE 754 binary64 arithmetic over exact rationals.
-/

/-! ### IEEE 754 binary64 model

JavaScript numbers are binary64 floating point values.  Every finite binary64
value is a rational number, and each arithmetic operation rounds the exact
rational result to the nearest representable value, ties to even.  All the
numbers flowing through the fee computation (`0.035`, integer cent subtotals,
and their products) are nonnegative, so rationals are represented as a
numerator/denominator pair of naturals (`QPos`, denominator positive by
construction); this keeps every operation kernel-computable.  The exponents
involved stay far inside the normal binary64 range and far below the fuel
bound used in `ilog2`, so the model is exact for every value the program
manipulates. -/

/-- A nonnegative rational as an unreduced fraction `n / d` (`d` positive by
construction at every use site). -/
structure QPos where
  n : ℕ
  d : ℕ
deriving DecidableEq

/-- Exact product of two fractions. -/
def qmul (a b : QPos) : QPos := ⟨a.n * b.n, a.d * b.d⟩

/-- Round a nonnegative fraction to the nearest integer, ties to even (the
IEEE 754 default rounding).  `2 * (n % d)` compared with `d` decides whether
the fractional part is below, above, or exactly one half. -/
def rnEven (q : QPos) : ℕ :=
  if 2 * (q.n % q.d) < q.d then q.n / q.d
  else if q.d < 2 * (q.n % q.d) then q.n / q.d + 1
  else if q.n / q.d % 2 = 0 then q.n / q.d else q.n / q.d + 1

/-- Fuel-bounded floor of the base-2 logarithm of a positive fraction.  The
fuel of 64 (see `ilog2`) covers every exponent reachable by the fee
computations modelled in this file. -/
def ilog2Aux : ℕ → QPos → ℤ
  | 0, _ => 0
  | fuel + 1, q =>
    if q.n < q.d then ilog2Aux fuel ⟨2 * q.n, q.d⟩ - 1
    else if 2 * q.d ≤ q.n then ilog2Aux fuel ⟨q.n, 2 * q.d⟩ + 1
    else 0

/-- Floor of the base-2 logarithm of a positive fraction. -/
def ilog2 (q : QPos) : ℤ := ilog2Aux 64 q

/-- Multiply a fraction by `2 ^ k` exactly (`k` may be negative). -/
def qscalePow2 (q : QPos) (k : ℤ) : QPos :=
  if 0 ≤ k then ⟨q.n * 2 ^ k.toNat, q.d⟩ else ⟨q.n, q.d * 2 ^ (-k).toNat⟩

/-- Round a nonnegative rational to the nearest IEEE 754 binary64 value
(normal range): scale into the 53-bit significand range, round to the nearest
integer with ties to even, and scale back. -/
def roundBinary64 (q : QPos) : QPos :=
  if q.n = 0 then ⟨0, 1⟩
  else qscalePow2 ⟨rnEven (qscalePow2 q ((52 : ℤ) - ilog2 q)), 1⟩ (ilog2 q - 52)

/-- Ceiling of a nonnegative fraction (`Math.ceil` is exact on the binary64
values of these magnitudes). -/
def qceil (q : QPos) : ℕ := (q.n + q.d - 1) / q.d

/-- `CONFIG.FEE_PERCENTAGE`: the JavaScript literal `0.035`, i.e. the binary64
value nearest to `35 / 1000` (that rational is not exactly representable in
binary64). -/
def FEE_PERCENTAGE : QPos := roundBinary64 ⟨35, 1000⟩

/-- `Utils.calculateFee`: `Math.ceil(subtotalCents * CONFIG.FEE_PERCENTAGE)`.
The integer subtotal is exact in binary64, the product performs one binary64
rounding of the exact product, and `Math.ceil` is exact at these magnitudes. -/
def calculateFee (subtotalCents : ℕ) : ℕ :=
  qceil (roundBinary64 (qmul ⟨subtotalCents, 1⟩ FEE_PERCENTAGE))

/-- The fee function as the specification words it: the exact ceiling of
`subtotal * 0.035` in real arithmetic.  Used to compare the code (which
rounds through binary64) against the specified contract. -/
def specCalculateFee (subtotalCents : ℕ) : ℕ := qceil ⟨35 * subtotalCents, 1000⟩

/-! ### Data model

`CONFIG` constants, cart documents as returned by `GET /cart.js`, and the
session-scoped preference storage.  A failed cart read (`Utils.getCart`
returning `null`) is modelled as `Option.none`. -/

/-- `CONFIG.PAYPAL_FEE_SKU`: the marker distinguishing the fee line item. -/
def PAYPAL_FEE_SKU : String := "PAYPAL-FEE-3-5"

/-- The string value stored under the session keys (`sessionStorage` holds
strings; the handler stores and compares the literal string `true`). -/
def sessionTrue : String := "true"

/-- One cart line item as exposed by `GET /cart.js`: a stable key, the SKU
marker, an integer quantity and the extended line price in cents. -/
structure Item where
  key : String
  sku : String
  quantity : ℕ
  final_line_price : ℕ
deriving DecidableEq

/-- A cart document: the ordered list of line items. -/
structure Cart where
  items : List Item
deriving DecidableEq

/-- The session-scoped preference storage: the values currently stored under
`CONFIG.SESSION_KEY_ADDED` (`paypal_fee_selected`) and
`CONFIG.SESSION_KEY_DECLINED` (`paypal_fee_declined`); `Option.none` means the
key is absent. -/
structure Session where
  added : Option String
  declined : Option String
deriving DecidableEq

/-- The test `sessionStorage.getItem(CONFIG.SESSION_KEY_ADDED) === 'true'`
used by every trigger pipeline. -/
def userWantsFee (s : Session) : Bool := s.added == some sessionTrue

/-- A session with neither preference key present. -/
def sessionUnset : Session := ⟨Option.none, Option.none⟩

/-- The test `item.sku === CONFIG.PAYPAL_FEE_SKU` identifying the fee line. -/
def isFeeItem (i : Item) : Bool := i.sku == PAYPAL_FEE_SKU

/-- `Utils.getSubtotalWithoutFee`: sum of `final_line_price` over the items
whose `sku` differs from `CONFIG.PAYPAL_FEE_SKU` (a `forEach` accumulation). -/
def getSubtotalWithoutFee (cart : Cart) : ℕ :=
  cart.items.foldl (fun acc i => if isFeeItem i then acc else acc + i.final_line_price) 0

/-- `Utils.getAdjustedItemCount`: sum of `quantity` over the items whose `sku`
differs from `CONFIG.PAYPAL_FEE_SKU`. -/
def getAdjustedItemCount (cart : Cart) : ℕ :=
  cart.items.foldl (fun acc i => if isFeeItem i then acc else acc + i.quantity) 0

/-- `Utils.findFeeLineItem`: `cart.items.find(item => item.sku === SKU)`. -/
def findFeeLineItem (cart : Cart) : Option Item :=
  cart.items.find? isFeeItem

/-! ### Store mutations

`CartAPI` issues at most one mutating call against the external cart store per
reconciliation pass.  The mutation chosen is modelled as a `FeeAction`; the
response of the store to each action is modelled in `applyAction` following
the request shapes of the spec (section 6): `POST /cart/add.js` prepends the
new line, `POST /cart/change.js` with an item key sets that line quantity, and
`POST /cart/change.js` with a 1-based line number and quantity 0 removes that
line. -/

/-- The store mutation issued by one reconciliation pass. -/
inductive FeeAction
  | noMutation
  | removeLine (line : ℕ)
  | addLine (amount : ℕ)
  | setQuantity (key : String) (amount : ℕ)
deriving DecidableEq

/-- True exactly for the `removeLine` action. -/
def isRemoveAction : FeeAction → Bool
  | FeeAction.removeLine _ => true
  | _ => false

/-- `CartAPI.removeFee`: reads the cart (no-op returning `false` on a failed
read), looks up the fee line item, returns `true` with no mutation when none
exists, and otherwise issues `POST /cart/change.js` with the 1-based line
index (`cart.items.indexOf(feeLineItem) + 1`) and quantity 0. -/
def removeFeeAction : Option Cart → FeeAction
  | Option.none => FeeAction.noMutation
  | some cart =>
    match findFeeLineItem cart with
    | Option.none => FeeAction.noMutation
    | some _ => FeeAction.removeLine (cart.items.findIdx isFeeItem + 1)

/-- `CartAPI.updateFee`: reads the cart (no-op on a failed read); if the
subtotal excluding the fee is 0, delegates to `removeFee`; otherwise computes
`feeAmount = Utils.calculateFee(subtotal)` (and `desiredQuantity =
Math.round(feeAmount)`, the identity on an integer), then issues nothing when
an existing fee line already carries that quantity, a quantity update on the
existing line when it does not, and an add when no fee line exists.  The
function never consults the session preference. -/
def updateFeeAction : Option Cart → FeeAction
  | Option.none => FeeAction.noMutation
  | some cart =>
    if getSubtotalWithoutFee cart = 0 then removeFeeAction (some cart)
    else
      match findFeeLineItem cart with
      | some existingFee =>
        if existingFee.quantity = calculateFee (getSubtotalWithoutFee cart) then FeeAction.noMutation
        else FeeAction.setQuantity existingFee.key (calculateFee (getSubtotalWithoutFee cart))
      | Option.none => FeeAction.addLine (calculateFee (getSubtotalWithoutFee cart))

/-- Fixed key given to the fee line created by `POST /cart/add.js` (the store
assigns the key; its concrete value is irrelevant to the engine). -/
def feeLineKey : String := "paypal-fee-line"

/-- The external cart store response to one action (spec section 6): `addLine`
prepends a fee line whose quantity encodes the amount in cents (the fee
product costs one cent per unit, so its extended price equals the quantity),
`setQuantity` updates the quantity of the line with the given key, and
`removeLine` deletes the line at the given 1-based index. -/
def applyAction (cart : Cart) : FeeAction → Cart
  | FeeAction.noMutation => cart
  | FeeAction.removeLine line => ⟨cart.items.eraseIdx (line - 1)⟩
  | FeeAction.addLine amount =>
    ⟨{ key := feeLineKey, sku := PAYPAL_FEE_SKU, quantity := amount,
       final_line_price := amount } :: cart.items⟩
  | FeeAction.setQuantity k amount =>
    ⟨cart.items.map (fun i => if i.key == k then { i with quantity := amount } else i)⟩

/-- Number of fee line items in a cart. -/
def feeCount (cart : Cart) : ℕ := (cart.items.filter isFeeItem).length

/-! ### Trigger pipelines -/

/-- The shared body of the `cart:updated` listener, the debounced
quantity-change recalculation, and the page-init alignment pass: read the cart
(returning on a failed read), and invoke `CartAPI.updateFee` only when a fee
line exists or the stored preference says the user wants the fee. -/
def recalcPipeline (cartResult : Option Cart) (s : Session) : FeeAction :=
  match cartResult with
  | Option.none => FeeAction.noMutation
  | some cart =>
    if (findFeeLineItem cart).isSome || userWantsFee s then updateFeeAction (some cart)
    else FeeAction.noMutation

/-- Result of `CheckboxHandler.checkEmptyCart`: the store mutation issued, the
session afterwards, and whether the checkboxes were forced unchecked. -/
structure EmptyCartOutcome where
  storeAction : FeeAction
  session : Session
  uncheckApplied : Bool
deriving DecidableEq

/-- `CheckboxHandler.checkEmptyCart`: reads the cart (returning on a failed
read); when the subtotal excluding the fee is 0, removes the fee, unchecks the
cart and drawer checkboxes, and deletes `SESSION_KEY_ADDED`. -/
def checkEmptyCart (cartResult : Option Cart) (s : Session) : EmptyCartOutcome :=
  match cartResult with
  | Option.none => ⟨FeeAction.noMutation, s, false⟩
  | some cart =>
    if getSubtotalWithoutFee cart = 0 then
      ⟨removeFeeAction (some cart), ⟨Option.none, s.declined⟩, true⟩
    else ⟨FeeAction.noMutation, s, false⟩

/-! ### Checkbox toggle pipeline

`CheckboxHandler.handleCheckboxChange` runs when a cart or drawer checkbox is
toggled.  It disables the control, shows a loader, optimistically writes the
preference, then inside a `try` block either adds the fee (checked) or removes
it (unchecked) and reloads the page.  Crucially, `CartAPI.addFee`,
`CartAPI.removeFee` and `CartAPI.setFeeQuantity` each wrap their network call
in their own `try`/`catch` and return `false` on failure instead of throwing,
and `handleCheckboxChange` ignores their return values, so a failed store
mutation still reaches `window.location.reload()`.  The only statement inside
the outer `try` that can throw is `Utils.getSubtotalWithoutFee(cart)` when the
cart read failed (`cart` is `null`), which is the one path reaching the
`catch` block that reverts the checkbox and the preference. -/

/-- Observable result of one run of `CheckboxHandler.handleCheckboxChange`:
the session afterwards, the checkbox state the user ends up seeing (after the
reload resynchronises it from storage on the reload paths), whether the
control is still disabled when the handler finishes, whether the page was
reloaded, whether the handler-level error alert fired, and the store mutation
that was attempted. -/
structure CheckboxOutcome where
  session : Session
  checkboxChecked : Bool
  checkboxDisabled : Bool
  reloaded : Bool
  alertShown : Bool
  attemptedAction : FeeAction
  storeMutationFailed : Bool
deriving DecidableEq

/-- `CheckboxHandler.handleCheckboxChange`, parameterised by the toggle
direction, the session before the event, the result of `Utils.getCart`, and
whether the store accepts the mutation (`storeOk = false` models a failed
`POST`).  On the reload paths the final checkbox state is the one the reloaded
page computes from storage (`syncCheckboxFromStorage`). -/
def handleCheckboxChange (isChecked : Bool) (sessionBefore : Session)
    (cartResult : Option Cart) (storeOk : Bool) : CheckboxOutcome :=
  let s1 : Session :=
    if isChecked then ⟨some sessionTrue, Option.none⟩
    else ⟨Option.none, sessionBefore.declined⟩
  if isChecked then
    match cartResult with
    | Option.none =>
      { session := ⟨Option.none, s1.declined⟩, checkboxChecked := false,
        checkboxDisabled := false, reloaded := false, alertShown := true,
        attemptedAction := FeeAction.noMutation, storeMutationFailed := false }
    | some cart =>
      { session := s1, checkboxChecked := s1.added == some sessionTrue,
        checkboxDisabled := true, reloaded := true, alertShown := false,
        attemptedAction := FeeAction.addLine (calculateFee (getSubtotalWithoutFee cart)),
        storeMutationFailed := !storeOk }
  else
    { session := s1, checkboxChecked := s1.added == some sessionTrue,
      checkboxDisabled := true, reloaded := true, alertShown := false,
      attemptedAction := removeFeeAction cartResult,
      storeMutationFailed := isRemoveAction (removeFeeAction cartResult) && !storeOk }

/-- `CheckboxHandler.handleProductCheckboxChange` (session effect): checking
stores the preference and deletes the declined key; unchecking deletes the
stored preference. -/
def handleProductCheckboxChange (isChecked : Bool) (s : Session) : Session :=
  if isChecked then ⟨some sessionTrue, Option.none⟩ else ⟨Option.none, s.declined⟩

/-- `CheckboxHandler.syncCheckboxState` (session effect): reads the cart
(returning on a failed read) and stores the preference when a fee line is
present in the cart. -/
def syncCheckboxState (cartResult : Option Cart) (s : Session) : Session :=
  match cartResult with
  | Option.none => s
  | some cart =>
    if (findFeeLineItem cart).isSome then ⟨some sessionTrue, s.declined⟩ else s

/-! ### Removal confirmation modal (`RemoveFeeHandler`) -/

/-- State of the confirmation dialog: whether it is shown (`active` class) and
whether page scroll is blocked (`body.style.overflow`). -/
structure ModalState where
  active : Bool
  scrollBlocked : Bool
deriving DecidableEq

/-- `RemoveFeeHandler.closeConfirmModal`: hides the dialog and restores page
scroll. -/
def closeConfirmModal (_m : ModalState) : ModalState := ⟨false, false⟩

/-- The three cancel triggers (cancel button, overlay click, Escape key) all
invoke only `closeConfirmModal`: the cart and the session pass through
untouched and no store call is made. -/
def cancelRemoval (m : ModalState) (_cartResult : Option Cart) (s : Session) :
    ModalState × FeeAction × Session :=
  (closeConfirmModal m, FeeAction.noMutation, s)

/-- Observable result of `RemoveFeeHandler.confirmRemoval`. -/
structure RemovalOutcome where
  modal : ModalState
  storeAction : FeeAction
  session : Session
  checkboxesChecked : Bool
  uiRefreshed : Bool
deriving DecidableEq

/-- `RemoveFeeHandler.confirmRemoval`: closes the dialog, invokes
`CartAPI.removeFee`, unchecks the fee checkboxes, deletes
`SESSION_KEY_ADDED`, and refreshes the cart UI fragment (whose re-initialised
listeners resynchronise every checkbox from the now-cleared storage). -/
def confirmRemoval (cartResult : Option Cart) (s : Session) : RemovalOutcome :=
  { modal := ⟨false, false⟩, storeAction := removeFeeAction cartResult,
    session := ⟨Option.none, s.declined⟩, checkboxesChecked := false,
    uiRefreshed := true }

/-! ### Session-writing operations

Every code path of the handler that writes to `sessionStorage`, gathered into
one type so that invariants over the preference store can be stated by
induction over arbitrary interleavings of operations. -/

/-- One session-writing operation of the handler, with its inputs. -/
inductive SessionOp
  | checkboxChange (isChecked : Bool) (cartResult : Option Cart) (storeOk : Bool)
  | productCheckboxChange (isChecked : Bool)
  | checkEmpty (cartResult : Option Cart)
  | syncCheckbox (cartResult : Option Cart)
  | confirmRemove (cartResult : Option Cart)
deriving DecidableEq

/-- The session after one operation (projections of the definitions above). -/
def applySessionOp (s : Session) : SessionOp → Session
  | SessionOp.checkboxChange isChecked cartResult storeOk =>
    (handleCheckboxChange isChecked s cartResult storeOk).session
  | SessionOp.productCheckboxChange isChecked => handleProductCheckboxChange isChecked s
  | SessionOp.checkEmpty cartResult => (checkEmptyCart cartResult s).session
  | SessionOp.syncCheckbox cartResult => syncCheckboxState cartResult s
  | SessionOp.confirmRemove cartResult => (confirmRemoval cartResult s).session

/-! ### Debounced trigger scheduler

The quantity-change listeners share one `scheduleRecalc` closure:
`clearTimeout` on the pending timer, then `setTimeout(body, 600)`.  Time is
modelled discretely: a trigger at time `t` replaces whatever timer is pending
with one that fires at `t + 600`; a pending timer actually executes exactly
when no later trigger arrives before its fire time. -/

/-- The quiescence window of `scheduleRecalc` (milliseconds). -/
def debounceWindow : ℕ := 600

/-- `scheduleRecalc` at time `now`: cancel any pending timer and schedule a
new one; the single pending slot enforces at most one outstanding delayed
reconciliation. -/
def scheduleRecalc (now : ℕ) (_pending : Option ℕ) : Option ℕ :=
  some (now + debounceWindow)

/-- The pending timer after a sequence of triggers at the given times. -/
def pendingAfter (ts : List ℕ) : Option ℕ :=
  ts.foldl (fun pending t => scheduleRecalc t pending) Option.none

/-- Fire times of the timers that survive uncancelled: the timer scheduled at
trigger `t` executes unless the next trigger arrives before `t + 600`. -/
def firedTimers : List ℕ → List ℕ
  | [] => []
  | [t] => [t + debounceWindow]
  | t :: t2 :: rest =>
    if t2 < t + debounceWindow then firedTimers (t2 :: rest)
    else (t + debounceWindow) :: firedTimers (t2 :: rest)

/-- The time of the last trigger of a burst (0 for an empty burst). -/
def lastTrigger : List ℕ → ℕ
  | [] => 0
  | [t] => t
  | _ :: rest => lastTrigger rest

/-! ### Concrete carts used by counterexamples and witnesses -/

/-- A cart holding one ordinary item of 1000 cents and no fee line. -/
def cartMerchOnly : Cart := ⟨[⟨"a1", "MERCH-1", 1, 1000⟩]⟩

/-- A cart holding one ordinary item of 1000 cents and a fee line whose
quantity (20) does not match the computed fee (35). -/
def cartWithStaleFee : Cart := ⟨[⟨"a1", "MERCH-1", 1, 1000⟩, ⟨"f1", PAYPAL_FEE_SKU, 20, 20⟩]⟩

/-- A cart holding one ordinary item of 1000 cents and a fee line whose
quantity (35) already matches the computed fee. -/
def cartWithSyncedFee : Cart := ⟨[⟨"a1", "MERCH-1", 1, 1000⟩, ⟨"f1", PAYPAL_FEE_SKU, 35, 35⟩]⟩

/-- A cart holding only the fee line: the subtotal excluding the fee is 0. -/
def cartFeeOnly : Cart := ⟨[⟨"f1", PAYPAL_FEE_SKU, 35, 35⟩]⟩

/-- A cart holding one ordinary item of 3000 cents and a stale fee line. -/
def cartStale3000 : Cart := ⟨[⟨"a1", "MERCH-1", 2, 3000⟩, ⟨"f1", PAYPAL_FEE_SKU, 70, 70⟩]⟩

/-! ### Helper lemmas on the cart functions -/

/-- Structural form of the `forEach` subtotal accumulation. -/
def subtotalList : List Item → ℕ
  | [] => 0
  | i :: t => (if isFeeItem i then 0 else i.final_line_price) + subtotalList t

theorem foldl_subtotal (l : List Item) : ∀ acc : ℕ,
    l.foldl (fun acc i => if isFeeItem i then acc else acc + i.final_line_price) acc
      = acc + subtotalList l := by
  induction l with
  | nil => intro acc; simp [subtotalList]
  | cons i t ih =>
    intro acc
    cases h : isFeeItem i with
    | true => simp [subtotalList, h, ih]
    | false =>
      simp only [List.foldl_cons, h, Bool.false_eq_true, if_false, subtotalList, ih]
      omega

theorem getSubtotal_eq (c : Cart) : getSubtotalWithoutFee c = subtotalList c.items := by
  simpa [getSubtotalWithoutFee] using foldl_subtotal c.items 0

/-- Mapping a function that preserves SKU markers and line prices over the
items does not change the subtotal. -/
theorem subtotalList_map_preserve (g : Item → Item)
    (hsku : ∀ i, (g i).sku = i.sku)
    (hprice : ∀ i, (g i).final_line_price = i.final_line_price) :
    ∀ l : List Item, subtotalList (l.map g) = subtotalList l := by
  intro l
  induction l with
  | nil => rfl
  | cons i t ih =>
    rw [List.map_cons]
    show (if isFeeItem (g i) then 0 else (g i).final_line_price) + subtotalList (t.map g)
      = (if isFeeItem i then 0 else i.final_line_price) + subtotalList t
    rw [ih, hprice i]
    have : isFeeItem (g i) = isFeeItem i := by simp [isFeeItem, hsku i]
    rw [this]

/-- Mapping a function that preserves the fee marker commutes with looking up
the first fee line. -/
theorem find?_map_preserve (g : Item → Item)
    (hfee : ∀ i, isFeeItem (g i) = isFeeItem i) :
    ∀ l : List Item, (l.map g).find? isFeeItem = (l.find? isFeeItem).map g := by
  intro l
  induction l with
  | nil => rfl
  | cons i t ih =>
    rw [List.map_cons]
    cases h : isFeeItem i with
    | true =>
      rw [List.find?_cons_of_pos _ (by rw [hfee]; exact h), List.find?_cons_of_pos _ h]
      rfl
    | false =>
      rw [List.find?_cons_of_neg _ (by simp [hfee, h]), List.find?_cons_of_neg _ (by simp [h]),
        ih]

/-- Mapping a function that preserves the fee marker does not change the
number of fee lines. -/
theorem filterFee_map_preserve (g : Item → Item)
    (hfee : ∀ i, isFeeItem (g i) = isFeeItem i) :
    ∀ l : List Item, ((l.map g).filter isFeeItem).length = (l.filter isFeeItem).length := by
  intro l
  induction l with
  | nil => rfl
  | cons i t ih =>
    rw [List.map_cons]
    cases h : isFeeItem i with
    | true =>
      rw [List.filter_cons_of_pos (by rw [hfee]; exact h), List.filter_cons_of_pos h]
      simp [ih]
    | false =>
      rw [List.filter_cons_of_neg (by simp [hfee, h]), List.filter_cons_of_neg (by simp [h]),
        ih]

/-- The `setFeeQuantity` update preserves the fee marker of every item. -/
theorem isFeeItem_setQuantity (k : String) (a : ℕ) (i : Item) :
    isFeeItem (if i.key == k then { i with quantity := a } else i) = isFeeItem i := by
  by_cases h : i.key == k <;> simp [h, isFeeItem]

/-- After `setFeeQuantity` on the first fee line, the first fee line is that
same line carrying the new quantity. -/
theorem find?_setQuantity (l : List Item) (ex : Item) (a : ℕ)
    (hfind : l.find? isFeeItem = some ex) :
    (l.map (fun i => if i.key == ex.key then { i with quantity := a } else i)).find? isFeeItem
      = some { ex with quantity := a } := by
  rw [find?_map_preserve _ (isFeeItem_setQuantity ex.key a) l, hfind]
  simp

/-- Erasing the first fee line does not change the subtotal excluding fee. -/
theorem subtotalList_eraseFirstFee (l : List Item) (ex : Item)
    (hfind : l.find? isFeeItem = some ex) :
    subtotalList (l.eraseIdx (l.findIdx isFeeItem)) = subtotalList l := by
  induction l with
  | nil => simp at hfind
  | cons i t ih =>
    cases h : isFeeItem i with
    | true =>
      rw [List.findIdx_cons]
      simp only [h, cond_true]
      rw [List.eraseIdx_cons_zero]
      simp [subtotalList, h]
    | false =>
      rw [List.find?_cons_of_neg _ (by simp [h])] at hfind
      rw [List.findIdx_cons]
      simp only [h, cond_false]
      rw [List.eraseIdx_cons_succ]
      simp only [subtotalList]
      rw [ih hfind]

/-- When at most one fee line exists, erasing the first one leaves none. -/
theorem find?_eraseFirstFee (l : List Item) (ex : Item)
    (hcount : (l.filter isFeeItem).length ≤ 1)
    (hfind : l.find? isFeeItem = some ex) :
    (l.eraseIdx (l.findIdx isFeeItem)).find? isFeeItem = Option.none := by
  induction l with
  | nil => simp at hfind
  | cons i t ih =>
    cases h : isFeeItem i with
    | true =>
      rw [List.filter_cons_of_pos h] at hcount
      simp only [List.length_cons] at hcount
      have ht : t.filter isFeeItem = [] := by
        have : (t.filter isFeeItem).length = 0 := by omega
        exact List.length_eq_zero.mp this
      have hnone : ∀ x ∈ t, ¬ isFeeItem x = true := by
        intro x hx hfee
        have : x ∈ t.filter isFeeItem := List.mem_filter.mpr ⟨hx, hfee⟩
        simp [ht] at this
      rw [List.findIdx_cons]
      simp only [h, cond_true]
      rw [List.eraseIdx_cons_zero]
      exact List.find?_eq_none.mpr hnone
    | false =>
      rw [List.filter_cons_of_neg (by simp [h])] at hcount
      rw [List.find?_cons_of_neg _ (by simp [h])] at hfind
      rw [List.findIdx_cons]
      simp only [h, cond_false]
      rw [List.eraseIdx_cons_succ, List.find?_cons_of_neg _ (by simp [h])]
      exact ih hcount hfind

/-- Prepending the fee line added by `addFee` does not change the subtotal. -/
theorem subtotalList_addFee (l : List Item) (a : ℕ) :
    subtotalList ((⟨feeLineKey, PAYPAL_FEE_SKU, a, a⟩ : Item) :: l) = subtotalList l := by
  simp [subtotalList, isFeeItem]

/-- Erasing a line never grows the fee count. -/
theorem feeCount_eraseIdx (l : List Item) (n : ℕ) :
    ((l.eraseIdx n).filter isFeeItem).length ≤ (l.filter isFeeItem).length :=
  List.Sublist.length_le (List.Sublist.filter isFeeItem (List.eraseIdx_sublist l n))

/-- When a fee line exists, `removeFee` issues a `removeLine` action. -/
theorem removeFee_isRemove (c : Cart) (ex : Item) (hfind : findFeeLineItem c = some ex) :
    isRemoveAction (removeFeeAction (some c)) = true := by
  simp [removeFeeAction, hfind, isRemoveAction]

/-- `updateFee` on a cart with zero subtotal and no fee line is a no-op. -/
theorem updateFee_noMutation_of_zero_nofee (c : Cart)
    (hS : getSubtotalWithoutFee c = 0) (hfind : findFeeLineItem c = Option.none) :
    updateFeeAction (some c) = FeeAction.noMutation := by
  simp [updateFeeAction, hS, removeFeeAction, hfind]

/-- `updateFee` on a cart whose fee line already carries the computed fee is a
no-op. -/
theorem updateFee_noMutation_of_synced (c : Cart) (ex : Item)
    (hS : getSubtotalWithoutFee c ≠ 0) (hfind : findFeeLineItem c = some ex)
    (hq : ex.quantity = calculateFee (getSubtotalWithoutFee c)) :
    updateFeeAction (some c) = FeeAction.noMutation := by
  simp [updateFeeAction, hS, hfind, hq]

/-- Core convergence fact behind the idempotence claim: applying the store
mutation chosen by `updateFee` and re-running `updateFee` on the resulting
cart issues no further mutation (for carts respecting the at-most-one-fee-line
invariant). -/
theorem updateFee_converges (c : Cart) (hone : feeCount c ≤ 1) :
    updateFeeAction (some (applyAction c (updateFeeAction (some c)))) = FeeAction.noMutation := by
  by_cases hS : getSubtotalWithoutFee c = 0
  · cases hfind : findFeeLineItem c with
    | none =>
      simp [updateFeeAction, hS, removeFeeAction, hfind, applyAction]
    | some ex =>
      have hact : updateFeeAction (some c)
          = FeeAction.removeLine (c.items.findIdx isFeeItem + 1) := by
        simp [updateFeeAction, hS, removeFeeAction, hfind]
      have happly : applyAction c (updateFeeAction (some c))
          = ⟨c.items.eraseIdx (c.items.findIdx isFeeItem)⟩ := by
        rw [hact]; simp [applyAction]
      have hsub2 : getSubtotalWithoutFee ⟨c.items.eraseIdx (c.items.findIdx isFeeItem)⟩ = 0 := by
        rw [getSubtotal_eq] at hS ⊢
        exact (subtotalList_eraseFirstFee c.items ex hfind).trans hS
      have hfind2 :
          findFeeLineItem ⟨c.items.eraseIdx (c.items.findIdx isFeeItem)⟩ = Option.none :=
        find?_eraseFirstFee c.items ex hone hfind
      rw [happly]
      exact updateFee_noMutation_of_zero_nofee _ hsub2 hfind2
  · cases hfind : findFeeLineItem c with
    | none =>
      have hact : updateFeeAction (some c)
          = FeeAction.addLine (calculateFee (getSubtotalWithoutFee c)) := by
        simp [updateFeeAction, hS, hfind]
      rw [hact]
      generalize hA : calculateFee (getSubtotalWithoutFee c) = A
      have happly : applyAction c (FeeAction.addLine A)
          = ⟨(⟨feeLineKey, PAYPAL_FEE_SKU, A, A⟩ : Item) :: c.items⟩ := rfl
      rw [happly]
      have hsub2 : getSubtotalWithoutFee ⟨(⟨feeLineKey, PAYPAL_FEE_SKU, A, A⟩ : Item) :: c.items⟩
          = getSubtotalWithoutFee c := by
        rw [getSubtotal_eq, getSubtotal_eq]
        exact subtotalList_addFee c.items A
      have hfind2 : findFeeLineItem ⟨(⟨feeLineKey, PAYPAL_FEE_SKU, A, A⟩ : Item) :: c.items⟩
          = some ⟨feeLineKey, PAYPAL_FEE_SKU, A, A⟩ :=
        List.find?_cons_of_pos _ (by simp [isFeeItem])
      exact updateFee_noMutation_of_synced _ _ (by rw [hsub2]; exact hS) hfind2
        (by show A = _; rw [hsub2, hA])
    | some ex =>
      by_cases hq : ex.quantity = calculateFee (getSubtotalWithoutFee c)
      · have hact : updateFeeAction (some c) = FeeAction.noMutation := by
          simp [updateFeeAction, hS, hfind, hq]
        rw [hact]
        exact hact
      · have hact : updateFeeAction (some c)
            = FeeAction.setQuantity ex.key (calculateFee (getSubtotalWithoutFee c)) := by
          simp [updateFeeAction, hS, hfind, hq]
        rw [hact]
        generalize hA : calculateFee (getSubtotalWithoutFee c) = A
        have happly : applyAction c (FeeAction.setQuantity ex.key A)
            = ⟨c.items.map (fun i => if i.key == ex.key then
                { i with quantity := A } else i)⟩ := rfl
        rw [happly]
        have hsub2 : getSubtotalWithoutFee
            ⟨c.items.map (fun i => if i.key == ex.key then { i with quantity := A } else i)⟩
            = getSubtotalWithoutFee c := by
          rw [getSubtotal_eq, getSubtotal_eq]
          exact subtotalList_map_preserve _
            (fun i => by by_cases hk : i.key == ex.key <;> simp [hk])
            (fun i => by by_cases hk : i.key == ex.key <;> simp [hk]) c.items
        have hfind2 : findFeeLineItem
            ⟨c.items.map (fun i => if i.key == ex.key then { i with quantity := A } else i)⟩
            = some { ex with quantity := A } :=
          find?_setQuantity c.items ex A hfind
        exact updateFee_noMutation_of_synced _ _ (by rw [hsub2]; exact hS) hfind2
          (by show A = _; rw [hsub2, hA])

/-! ### Sanity anchors for the binary64 model -/

/-- The double nearest to `0.035` is `5044031582654956 / 2 ^ 57 =
0.035000000000000003...`, slightly above `35 / 1000`. -/
theorem fee_percentage_value : FEE_PERCENTAGE = ⟨5044031582654956, 2 ^ 57⟩ := by decide

/-- In binary64, `200 * 0.035` evaluates to `7.000000000000001` (exactly
`7 + 2 ^ (-50)`), not `7`; this is the root cause of the `calculateFee`
divergence. -/
theorem product_200_value :
    roundBinary64 (qmul ⟨200, 1⟩ FEE_PERCENTAGE) = ⟨7 * 2 ^ 50 + 1, 2 ^ 50⟩ := by decide

/-! ### Helper lemmas on the debounce scheduler -/

/-- After any nonempty burst of triggers, the single pending timer is the one
scheduled by the last trigger, regardless of the initial pending state. -/
theorem foldl_schedule (l : List ℕ) : ∀ acc : Option ℕ, l ≠ [] →
    l.foldl (fun pending u => scheduleRecalc u pending) acc
      = some (lastTrigger l + debounceWindow) := by
  induction l with
  | nil => intro acc h; exact absurd rfl h
  | cons u us ih =>
    intro acc _
    cases us with
    | nil => rfl
    | cons v vs =>
      rw [List.foldl_cons, ih _ (by simp)]
      rfl

/-- In a burst where every gap is below the quiescence window, only the timer
of the last trigger survives uncancelled. -/
theorem firedTimers_burst (t : ℕ) (ts : List ℕ)
    (h : List.Chain (fun a b => a ≤ b ∧ b < a + debounceWindow) t ts) :
    firedTimers (t :: ts) = [lastTrigger (t :: ts) + debounceWindow] := by
  induction ts generalizing t with
  | nil => rfl
  | cons t2 rest ih =>
    cases h with
    | cons hrel hchain =>
      show (if t2 < t + debounceWindow then firedTimers (t2 :: rest)
        else (t + debounceWindow) :: firedTimers (t2 :: rest)) = _
      rw [if_pos hrel.2, ih t2 hchain]
      rfl

/-! ### Helper lemma on the session operations -/

/-- Every session-writing operation either deletes the declined key or leaves
it untouched; none ever writes it. -/
theorem sessionOp_declined (s : Session) (op : SessionOp) :
    (applySessionOp s op).declined = Option.none ∨
      (applySessionOp s op).declined = s.declined := by
  cases op with
  | checkboxChange isChecked cartResult storeOk =>
    cases isChecked with
    | false => right; rfl
    | true =>
      cases cartResult with
      | none => left; rfl
      | some cart => left; rfl
  | productCheckboxChange isChecked =>
    cases isChecked with
    | false => right; rfl
    | true => left; rfl
  | checkEmpty cartResult =>
    cases cartResult with
    | none => right; rfl
    | some cart =>
      by_cases h : getSubtotalWithoutFee cart = 0 <;>
        right <;> simp [applySessionOp, checkEmptyCart, h]
  | syncCheckbox cartResult =>
    cases cartResult with
    | none => right; rfl
    | some cart =>
      by_cases h : (findFeeLineItem cart).isSome <;>
        right <;> simp [applySessionOp, syncCheckboxState, h]
  | confirmRemove cartResult => right; rfl

/-! ### Claim C1 -/

/-- C1: the claim states that for every non-negative integer subtotal `s` in
minor currency units, `calculateFee(s)` returns the exact ceiling of
`s * 0.035`.  The code computes `Math.ceil(s * 0.035)` in binary64 arithmetic,
and at `s = 200` the product evaluates to `7.000000000000001`, so the code
returns 8 while the exact ceiling (and the intent documented in the source,
3.5 percent rounded up) is 7.  The quoted examples 1000, 1001 and 0 do agree
with the exact ceiling. -/
theorem C1_calculateFee_binary64_bug :
    calculateFee 200 = 8 ∧ specCalculateFee 200 = 7 ∧
    calculateFee 200 ≠ specCalculateFee 200 ∧
    calculateFee 1000 = 35 ∧ calculateFee 1001 = 36 ∧ calculateFee 0 = 0 := by
  decide

/-! ### Claim C2 -/

/-- C2 (counterexample): the claim states that whenever the preference is not
wants-fee and a fee line exists, `updateFee` issues a `Remove`.  On a cart
with a positive subtotal and a stale fee line, with no preference stored, the
reconciliation pipeline invokes `updateFee` (because a fee line exists) and
`updateFee` issues a quantity update of the fee line, not a removal. -/
theorem C2_counterexample :
    userWantsFee sessionUnset = false ∧
    (findFeeLineItem cartWithStaleFee).isSome = true ∧
    updateFeeAction (some cartWithStaleFee) = FeeAction.setQuantity "f1" 35 ∧
    isRemoveAction (updateFeeAction (some cartWithStaleFee)) = false ∧
    recalcPipeline (some cartWithStaleFee) sessionUnset = FeeAction.setQuantity "f1" 35 := by
  decide

/-- C2 (amended): `updateFee` never consults the preference.  When the
preference is not wants-fee: if no fee line exists, the trigger pipeline
issues no mutation (it does not even invoke `updateFee`); if a fee line
exists, the pipeline does invoke `updateFee`, which removes the fee line
exactly when the subtotal excluding the fee is 0, and otherwise keeps the fee
line, issuing either nothing or a quantity update to the computed fee. -/
theorem C2_amended_preference_ignored (c : Cart) (s : Session)
    (hw : userWantsFee s = false) :
    (findFeeLineItem c = Option.none → recalcPipeline (some c) s = FeeAction.noMutation) ∧
    (∀ ex, findFeeLineItem c = some ex →
      (getSubtotalWithoutFee c = 0 → isRemoveAction (updateFeeAction (some c)) = true) ∧
      (getSubtotalWithoutFee c ≠ 0 →
        isRemoveAction (updateFeeAction (some c)) = false ∧
        recalcPipeline (some c) s = updateFeeAction (some c) ∧
        (updateFeeAction (some c) = FeeAction.noMutation ∨
          updateFeeAction (some c)
            = FeeAction.setQuantity ex.key (calculateFee (getSubtotalWithoutFee c))))) := by
  constructor
  · intro hfind
    simp [recalcPipeline, hfind, hw]
  · intro ex hfind
    constructor
    · intro hS
      have hupd : updateFeeAction (some c) = removeFeeAction (some c) := by
        simp [updateFeeAction, hS]
      rw [hupd]
      exact removeFee_isRemove c ex hfind
    · intro hS
      have hpipe : recalcPipeline (some c) s = updateFeeAction (some c) := by
        simp [recalcPipeline, hfind]
      by_cases hq : ex.quantity = calculateFee (getSubtotalWithoutFee c)
      · have hupd : updateFeeAction (some c) = FeeAction.noMutation := by
          simp [updateFeeAction, hS, hfind, hq]
        exact ⟨by rw [hupd]; rfl, hpipe, Or.inl hupd⟩
      · have hupd : updateFeeAction (some c)
            = FeeAction.setQuantity ex.key (calculateFee (getSubtotalWithoutFee c)) := by
          simp [updateFeeAction, hS, hfind, hq]
        exact ⟨by rw [hupd]; rfl, hpipe, Or.inr hupd⟩

/-- C2 (witness): the amended claim evaluated on the stale-fee cart with an
unset preference. -/
theorem C2_witness :
    isRemoveAction (updateFeeAction (some cartWithStaleFee)) = false ∧
    recalcPipeline (some cartWithStaleFee) sessionUnset
      = updateFeeAction (some cartWithStaleFee) := by
  have h := C2_amended_preference_ignored cartWithStaleFee sessionUnset (by decide)
  have h2 := (h.2 ⟨"f1", PAYPAL_FEE_SKU, 20, 20⟩ (by decide)).2 (by decide)
  exact ⟨h2.1, h2.2.1⟩

/-! ### Claim C3 -/

/-- C3: on every cart whose subtotal excluding the fee is 0, `updateFee`
delegates to `removeFee`, which removes the fee line when one exists and does
nothing otherwise — never an add or a quantity update, and independently of
the stored preference (`updateFee` takes no preference input at all) — and
`checkEmptyCart` issues the same removal and clears the stored preference. -/
theorem C3_zero_subtotal_removes (c : Cart) (s : Session)
    (hS : getSubtotalWithoutFee c = 0) :
    updateFeeAction (some c) = removeFeeAction (some c) ∧
    (∀ ex, findFeeLineItem c = some ex → isRemoveAction (updateFeeAction (some c)) = true) ∧
    (findFeeLineItem c = Option.none → updateFeeAction (some c) = FeeAction.noMutation) ∧
    (∀ a, updateFeeAction (some c) ≠ FeeAction.addLine a) ∧
    (∀ k a, updateFeeAction (some c) ≠ FeeAction.setQuantity k a) ∧
    (checkEmptyCart (some c) s).session.added = Option.none ∧
    (checkEmptyCart (some c) s).storeAction = removeFeeAction (some c) := by
  have hupd : updateFeeAction (some c) = removeFeeAction (some c) := by
    simp [updateFeeAction, hS]
  refine ⟨hupd, ?_, ?_, ?_, ?_, ?_, ?_⟩
  · intro ex hfind
    rw [hupd]
    exact removeFee_isRemove c ex hfind
  · intro hfind
    rw [hupd]
    simp [removeFeeAction, hfind]
  · intro a
    rw [hupd]
    cases hfind : findFeeLineItem c <;> simp [removeFeeAction, hfind]
  · intro k a
    rw [hupd]
    cases hfind : findFeeLineItem c <;> simp [removeFeeAction, hfind]
  · simp [checkEmptyCart, hS]
  · simp [checkEmptyCart, hS]

/-- C3 (witness): the zero-subtotal rule evaluated on the fee-only cart with a
wants-fee preference stored. -/
theorem C3_witness :
    updateFeeAction (some cartFeeOnly) = removeFeeAction (some cartFeeOnly) ∧
    isRemoveAction (updateFeeAction (some cartFeeOnly)) = true ∧
    (checkEmptyCart (some cartFeeOnly) ⟨some sessionTrue, Option.none⟩).session.added
      = Option.none := by
  have h := C3_zero_subtotal_removes cartFeeOnly ⟨some sessionTrue, Option.none⟩ (by decide)
  exact ⟨h.1, h.2.1 ⟨"f1", PAYPAL_FEE_SKU, 35, 35⟩ (by decide), h.2.2.2.2.2.1⟩

/-! ### Claim C4 -/

/-- C4: reconciliation is idempotent.  After the action chosen by one
`updateFee` pass has been applied to the cart store, a second pass issues no
mutation; the same holds for the full trigger pipeline (which also consults
the preference); and in particular a fee line already carrying the computed
fee produces no cart-store write at all.  The cart is assumed to respect the
at-most-one-fee-line invariant stated by the specification data model. -/
theorem C4_reconcile_idempotent (c : Cart) (s : Session) (hone : feeCount c ≤ 1) :
    updateFeeAction (some (applyAction c (updateFeeAction (some c)))) = FeeAction.noMutation ∧
    recalcPipeline (some (applyAction c (recalcPipeline (some c) s))) s
      = FeeAction.noMutation ∧
    (∀ ex, findFeeLineItem c = some ex → getSubtotalWithoutFee c ≠ 0 →
      ex.quantity = calculateFee (getSubtotalWithoutFee c) →
      updateFeeAction (some c) = FeeAction.noMutation) := by
  refine ⟨updateFee_converges c hone, ?_, ?_⟩
  · cases hgate : ((findFeeLineItem c).isSome || userWantsFee s) with
    | false =>
      have h1 : recalcPipeline (some c) s = FeeAction.noMutation := by
        simp only [recalcPipeline]
        rw [if_neg (by simp [hgate])]
      rw [h1]
      show recalcPipeline (some c) s = FeeAction.noMutation
      exact h1
    | true =>
      have h1 : recalcPipeline (some c) s = updateFeeAction (some c) := by
        simp only [recalcPipeline]
        rw [if_pos (by simp [hgate])]
      rw [h1]
      cases hgate2 :
          ((findFeeLineItem (applyAction c (updateFeeAction (some c)))).isSome
            || userWantsFee s) with
      | false =>
        simp only [recalcPipeline]
        rw [if_neg (by simp [hgate2])]
      | true =>
        simp only [recalcPipeline]
        rw [if_pos (by simp [hgate2])]
        exact updateFee_converges c hone
  · intro ex hfind hS hq
    exact updateFee_noMutation_of_synced c ex hS hfind hq

/-- C4 (witness): idempotence evaluated on the stale-fee cart with an unset
preference. -/
theorem C4_witness :
    updateFeeAction
        (some (applyAction cartWithStaleFee (updateFeeAction (some cartWithStaleFee))))
      = FeeAction.noMutation ∧
    recalcPipeline
        (some (applyAction cartWithStaleFee (recalcPipeline (some cartWithStaleFee) sessionUnset)))
        sessionUnset
      = FeeAction.noMutation := by
  have h := C4_reconcile_idempotent cartWithStaleFee sessionUnset (by decide)
  exact ⟨h.1, h.2.1⟩

/-! ### Claim C5 -/

/-- C5: on every cart already containing a fee line, reconciliation never
issues an `Add`; the fee count never grows under the action it issues (so a
reconciliation pass never creates a duplicate fee line); and whenever the
subtotal is positive and the existing quantity differs from the computed fee,
the action is a `SetQuantity` on the existing line.  (When the subtotal is 0
the zero-subtotal rule wins first and the line is removed, per C3.) -/
theorem C5_no_duplicate_fee_line (c : Cart) (ex : Item)
    (hfind : findFeeLineItem c = some ex) :
    (∀ a, updateFeeAction (some c) ≠ FeeAction.addLine a) ∧
    feeCount (applyAction c (updateFeeAction (some c))) ≤ feeCount c ∧
    (getSubtotalWithoutFee c ≠ 0 →
      ex.quantity ≠ calculateFee (getSubtotalWithoutFee c) →
      updateFeeAction (some c)
        = FeeAction.setQuantity ex.key (calculateFee (getSubtotalWithoutFee c))) := by
  refine ⟨?_, ?_, ?_⟩
  · intro a
    by_cases hS : getSubtotalWithoutFee c = 0
    · have hupd : updateFeeAction (some c) = removeFeeAction (some c) := by
        simp [updateFeeAction, hS]
      rw [hupd]
      simp [removeFeeAction, hfind]
    · by_cases hq : ex.quantity = calculateFee (getSubtotalWithoutFee c)
      · simp [updateFee_noMutation_of_synced c ex hS hfind hq]
      · simp [updateFeeAction, hS, hfind, hq]
  · by_cases hS : getSubtotalWithoutFee c = 0
    · have hact : updateFeeAction (some c)
          = FeeAction.removeLine (c.items.findIdx isFeeItem + 1) := by
        simp [updateFeeAction, hS, removeFeeAction, hfind]
      rw [hact]
      exact feeCount_eraseIdx c.items (c.items.findIdx isFeeItem)
    · by_cases hq : ex.quantity = calculateFee (getSubtotalWithoutFee c)
      · rw [updateFee_noMutation_of_synced c ex hS hfind hq]
        exact Nat.le_refl _
      · have hact : updateFeeAction (some c)
            = FeeAction.setQuantity ex.key (calculateFee (getSubtotalWithoutFee c)) := by
          simp [updateFeeAction, hS, hfind, hq]
        rw [hact]
        exact Nat.le_of_eq
          (filterFee_map_preserve _
            (isFeeItem_setQuantity ex.key (calculateFee (getSubtotalWithoutFee c))) c.items)
  · intro hS hq
    simp [updateFeeAction, hS, hfind, hq]

/-- C5 (witness): the stale fee line of the 3000-cent cart is resized in
place (to the binary64 fee 106) and the fee count does not grow. -/
theorem C5_witness :
    updateFeeAction (some cartStale3000) = FeeAction.setQuantity "f1" 106 ∧
    feeCount (applyAction cartStale3000 (updateFeeAction (some cartStale3000)))
      ≤ feeCount cartStale3000 := by
  have h := C5_no_duplicate_fee_line cartStale3000 ⟨"f1", PAYPAL_FEE_SKU, 70, 70⟩ (by decide)
  exact ⟨(h.2.2 (by decide) (by decide)).trans (by decide), h.2.1⟩

/-! ### Claim C6 -/

/-- C6: a failed cart read (`getCart` returning null, modelled as
`Option.none`) makes every consumer a no-op: `updateFee` and `removeFee`
issue no store mutation, `checkEmptyCart` issues no mutation, leaves the
session untouched and does not uncheck anything (a failed read is never
treated as an empty cart), the gated trigger pipeline issues no mutation, and
`syncCheckboxState` leaves the session untouched. -/
theorem C6_unavailable_noop (s : Session) :
    updateFeeAction Option.none = FeeAction.noMutation ∧
    removeFeeAction Option.none = FeeAction.noMutation ∧
    checkEmptyCart Option.none s = ⟨FeeAction.noMutation, s, false⟩ ∧
    recalcPipeline Option.none s = FeeAction.noMutation ∧
    syncCheckboxState Option.none s = s :=
  ⟨rfl, rfl, rfl, rfl, rfl⟩

/-- C6 (witness): the no-op behaviour evaluated at a concrete session. -/
theorem C6_witness :
    checkEmptyCart Option.none sessionUnset = ⟨FeeAction.noMutation, sessionUnset, false⟩ ∧
    recalcPipeline Option.none sessionUnset = FeeAction.noMutation :=
  ⟨(C6_unavailable_noop sessionUnset).2.2.1, (C6_unavailable_noop sessionUnset).2.2.2.1⟩

/-! ### Claim C7 -/

/-- C7: for a burst of triggers in which every successive gap is below the
600 ms quiescence window, each trigger replaces (cancels) the pending timer
(`scheduleRecalc` always returns exactly one pending timer, so at most one
delayed reconciliation is ever outstanding), exactly one timer survives
uncancelled — the one scheduled by the last trigger — and it fires, reading
its snapshot, strictly after the last trigger. -/
theorem C7_debounce_collapse (t : ℕ) (ts : List ℕ)
    (h : List.Chain (fun a b => a ≤ b ∧ b < a + debounceWindow) t ts) :
    firedTimers (t :: ts) = [lastTrigger (t :: ts) + debounceWindow] ∧
    pendingAfter (t :: ts) = some (lastTrigger (t :: ts) + debounceWindow) ∧
    (∀ now pending, scheduleRecalc now pending = some (now + debounceWindow)) ∧
    (∀ u ∈ firedTimers (t :: ts), lastTrigger (t :: ts) < u) := by
  refine ⟨firedTimers_burst t ts h, foldl_schedule (t :: ts) Option.none (by simp),
    fun now pending => rfl, ?_⟩
  intro u hu
  rw [firedTimers_burst t ts h] at hu
  simp only [List.mem_singleton] at hu
  subst hu
  simp [debounceWindow]

/-- C7 (witness): three rapid triggers at 0, 100 and 200 ms collapse to the
single reconciliation pass firing at 800 ms. -/
theorem C7_witness :
    firedTimers [0, 100, 200] = [800] ∧ pendingAfter [0, 100, 200] = some 800 := by
  have hchain : List.Chain (fun a b => a ≤ b ∧ b < a + debounceWindow) 0 [100, 200] :=
    List.Chain.cons ⟨by decide, by decide⟩
      (List.Chain.cons ⟨by decide, by decide⟩ List.Chain.nil)
  have h := C7_debounce_collapse 0 [100, 200] hchain
  exact ⟨h.1.trans (by decide), h.2.1.trans (by decide)⟩

/-! ### Claim C8 -/

/-- C8 (counterexample): the claim states that a failed store mutation
reverts the checkbox and the stored preference.  Toggling the checkbox on
with a healthy cart read but a failing `POST /cart/add.js` still reloads the
page with the optimistic preference kept and the checkbox checked: `addFee`
swallows its own failure and returns `false`, which the pipeline ignores, so
the checkbox is left checked while the store mutation failed. -/
theorem C8_counterexample :
    (handleCheckboxChange true sessionUnset (some cartMerchOnly) false).storeMutationFailed
      = true ∧
    (handleCheckboxChange true sessionUnset (some cartMerchOnly) false).checkboxChecked
      = true ∧
    (handleCheckboxChange true sessionUnset (some cartMerchOnly) false).session.added
      = some sessionTrue ∧
    (handleCheckboxChange true sessionUnset (some cartMerchOnly) false).reloaded = true ∧
    (handleCheckboxChange true sessionUnset (some cartMerchOnly) false).alertShown
      = false := by
  decide

/-- C8 (amended): on a checkbox toggle, whenever the cart read succeeds the
pipeline reloads the page regardless of whether the store mutation succeeded,
keeping the optimistically written preference (and hence the checkbox state
derived from it); store-mutation failures are swallowed inside
`addFee`/`removeFee`.  The revert path — uncheck, re-enable, restore the
preference, surface an error, no reload — runs exactly when the pipeline
throws before reloading, which in this code happens only when the
checked-path cart read fails. -/
theorem C8_amended_reload_keeps_preference (s : Session) (c : Cart)
    (cartResult : Option Cart) (ok : Bool) :
    ((handleCheckboxChange true s (some c) ok).reloaded = true ∧
      (handleCheckboxChange true s (some c) ok).session.added = some sessionTrue ∧
      (handleCheckboxChange true s (some c) ok).checkboxChecked = true ∧
      (handleCheckboxChange true s (some c) ok).storeMutationFailed = !ok) ∧
    handleCheckboxChange true s Option.none ok
      = ⟨⟨Option.none, Option.none⟩, false, false, false, true,
          FeeAction.noMutation, false⟩ ∧
    ((handleCheckboxChange false s cartResult ok).reloaded = true ∧
      (handleCheckboxChange false s cartResult ok).session.added = Option.none ∧
      (handleCheckboxChange false s cartResult ok).checkboxChecked = false) :=
  ⟨⟨rfl, rfl, rfl, rfl⟩, rfl, rfl, rfl, rfl⟩

/-! ### Claim C9 -/

/-- C9: cancelling the removal confirmation (cancel button, overlay click, or
Escape — all wired to `closeConfirmModal` alone) closes the dialog, restores
scroll, and mutates neither the cart nor the session; confirming closes the
dialog, issues the `removeFee` mutation (a removal whenever a fee line
exists), deletes the stored preference, leaves the checkboxes unchecked, and
refreshes the cart UI fragment. -/
theorem C9_removal_confirmation (m : ModalState) (cartResult : Option Cart) (s : Session) :
    cancelRemoval m cartResult s = (⟨false, false⟩, FeeAction.noMutation, s) ∧
    (confirmRemoval cartResult s).modal = ⟨false, false⟩ ∧
    (confirmRemoval cartResult s).storeAction = removeFeeAction cartResult ∧
    (confirmRemoval cartResult s).session.added = Option.none ∧
    (confirmRemoval cartResult s).session.declined = s.declined ∧
    (confirmRemoval cartResult s).checkboxesChecked = false ∧
    (confirmRemoval cartResult s).uiRefreshed = true ∧
    (∀ c ex, cartResult = some c → findFeeLineItem c = some ex →
      isRemoveAction ((confirmRemoval cartResult s).storeAction) = true) := by
  refine ⟨rfl, rfl, rfl, rfl, rfl, rfl, rfl, ?_⟩
  intro c ex hcr hfind
  subst hcr
  show isRemoveAction (removeFeeAction (some c)) = true
  exact removeFee_isRemove c ex hfind

/-- C9 (witness): the confirmation flow evaluated on a cart with a synced fee
line and an open modal. -/
theorem C9_witness :
    cancelRemoval ⟨true, true⟩ (some cartWithSyncedFee) sessionUnset
      = (⟨false, false⟩, FeeAction.noMutation, sessionUnset) ∧
    isRemoveAction ((confirmRemoval (some cartWithSyncedFee) sessionUnset).storeAction)
      = true := by
  have h := C9_removal_confirmation ⟨true, true⟩ (some cartWithSyncedFee) sessionUnset
  exact ⟨h.1, h.2.2.2.2.2.2.2 cartWithSyncedFee ⟨"f1", PAYPAL_FEE_SKU, 35, 35⟩ rfl (by decide)⟩

/-! ### Claim C10 -/

/-- C10: no session-writing operation of the handler ever writes the declined
preference key: every operation either deletes `SESSION_KEY_DECLINED` or
leaves it untouched (only `SESSION_KEY_ADDED` is ever set), so from a session
in which the declined key is absent, no interleaving of operations can ever
make it present — the preference is effectively two-valued. -/
theorem C10_declined_never_written (op : SessionOp) (s : Session) (ops : List SessionOp) :
    ((applySessionOp s op).declined = Option.none ∨
      (applySessionOp s op).declined = s.declined) ∧
    (s.declined = Option.none → (ops.foldl applySessionOp s).declined = Option.none) := by
  refine ⟨sessionOp_declined s op, ?_⟩
  induction ops generalizing s with
  | nil => intro h; simpa using h
  | cons op2 rest ih =>
    intro h
    rw [List.foldl_cons]
    apply ih
    rcases sessionOp_declined s op2 with h2 | h2
    · exact h2
    · rw [h2]
      exact h

/-- C10 (witness): the invariant evaluated at a concrete operation sequence
starting from the unset session. -/
theorem C10_witness :
    ((applySessionOp sessionUnset (SessionOp.productCheckboxChange true)).declined
        = Option.none ∨
      (applySessionOp sessionUnset (SessionOp.productCheckboxChange true)).declined
        = sessionUnset.declined) ∧
    ([SessionOp.productCheckboxChange true,
      SessionOp.checkEmpty (some cartFeeOnly)].foldl applySessionOp sessionUnset).declined
      = Option.none := by
  have h := C10_declined_never_written (SessionOp.productCheckboxChange true) sessionUnset
    [SessionOp.productCheckboxChange true, SessionOp.checkEmpty (some cartFeeOnly)]
  exact ⟨h.1, h.2 rfl⟩
